import Mathlib

/-!
Verification development for the shared middleware library
(`codex-shared-libraries`): a sliding-window rate limiter with
path-scoped policy overrides, and a bounded in-memory request-metrics
recorder with streaming aggregates.

The definitions below are shallow embeddings of the TypeScript source:

* `middleware/rateLimit.ts`: `RateLimitConfig`, `getConfigForPath`,
  `defaultKeyGenerator`, the per-request body of the middleware returned
  by `rateLimiter` (embedded as `rateLimitStep`), and the construction
  phase of `rateLimiter` itself.
* `middleware/metrics.ts`: `SUSPICIOUS_PATTERNS`, `checkSuspicious`,
  `createMetricsStore`, `updateAggregatedStats`, the store mutation
  performed by `metricsLogger` after a request completes, and the read
  accessors `getRecentMetrics`, `getAggregatedStats`,
  `getSuspiciousRequests`, `getRequestsByIP`.

JavaScript millisecond timestamps are embedded as `Int`, counters as
`Nat`, and the floating-point running average as `ℚ` (every operation
performed on it by the source at the inputs appearing in the theorems
below is exact, so the rational value coincides with the IEEE value).
JavaScript objects used as string-keyed maps are embedded as association
lists in insertion order; because the metrics code mutates those map
objects through shared references, the metrics store is embedded with an
explicit heap of map cells addressed by `Nat`, so that the shallow-copy
semantics of the `getAggregatedStats` accessor is captured faithfully.
-/

/-! ## String primitives

JavaScript string primitives used by the source, embedded as structural
recursions over character lists (so that concrete instances evaluate
inside the kernel). -/

/-- Embeds JavaScript `s.startsWith(p)`. -/
def jsStartsWith (s p : String) : Bool := p.toList.isPrefixOf s.toList

/-- Embeds JavaScript `s.endsWith(p)`. -/
def jsEndsWith (s p : String) : Bool := p.toList.isSuffixOf s.toList

/-- Splits a character list at `/` separators; embeds `s.split('/')`. -/
def splitSlash : List Char → List Char → List (List Char)
  | [], acc => [acc.reverse]
  | x :: xs, acc => if x = '/' then acc.reverse :: splitSlash xs [] else splitSlash xs (x :: acc)

/-- Joins character lists with `/` separators; embeds `parts.join('/')`. -/
def joinSlash : List (List Char) → List Char
  | [] => []
  | [p] => p
  | p :: ps => p ++ '/' :: joinSlash ps

/-- Embeds `path.split('/').slice(0, n).join('/')`. -/
def pathSegments (path : String) (n : Nat) : String :=
  String.mk (joinSlash ((splitSlash path.toList []).take n))

/-! ## Rate limiter (`middleware/rateLimit.ts`) -/

/-- Embeds `RateLimitConfig`: `limit` is the max number of requests per
window, `window` the window size in seconds.  Both are JavaScript
numbers; they are embedded as `Int` so that non-positive configurations
can be expressed. -/
structure RateLimitConfig where
  limit : Int
  window : Int
deriving DecidableEq, Repr

/-- Embeds `entry.timestamps = entry.timestamps.filter(t => now - t < windowMs)`
(line 131 of the middleware source). -/
def prune (ts : List Int) (now windowMs : Int) : List Int :=
  ts.filter (fun t => now - t < windowMs)

/-- Embeds `Math.ceil(a / b)` for an integer numerator `a` and positive
integer denominator `b` (Lean `Int` division is floor division for a
positive divisor, and `⌈a/b⌉ = -⌊-a/b⌋`). -/
def jsCeilDiv (a b : Int) : Int := -((-a) / b)

/-- Embeds `Math.ceil((oldestInWindow + windowMs - now) / 1000)` where
`oldestInWindow = Math.min(...entry.timestamps)`; `Math.min()` of an
empty spread is `Infinity`, giving an infinite reset, which is embedded
as `none`. -/
def resetInOf (pruned : List Int) (windowMs now : Int) : Option Int :=
  (pruned.min?).map (fun oldest => jsCeilDiv (oldest + windowMs - now) 1000)

/-- Renders an optional reset count the way the source renders it into a
header value (`Infinity.toString() = "Infinity"`). -/
def rlHeaderValue : Option Int → String
  | some n => toString n
  | none => "Infinity"

/-- Observable outcome of one pass through the body of the middleware
returned by `rateLimiter`: the timestamps stored for the key afterwards,
whether the request was admitted, the response headers set, and the
`retryAfter` field of the JSON error body on deny. -/
structure RLStepResult where
  entry : List Int
  admitted : Bool
  headers : List (String × String)
  retryAfter : Option Int
deriving DecidableEq, Repr

/-- Embeds lines 120-156 of the middleware body for one request against
one key: prune the stored timestamps, deny with reset metadata when the
surviving count is at or above the limit (without recording the new
attempt), otherwise record `now` and admit. -/
def rateLimitStep (ts : List Int) (cfg : RateLimitConfig) (now : Int) : RLStepResult :=
  let windowMs := cfg.window * 1000
  let pruned := prune ts now windowMs
  if (pruned.length : Int) ≥ cfg.limit then
    let resetIn := resetInOf pruned windowMs now
    { entry := pruned
      admitted := false
      headers := [("X-RateLimit-Limit", toString cfg.limit),
                  ("X-RateLimit-Remaining", "0"),
                  ("X-RateLimit-Reset", rlHeaderValue resetIn),
                  ("Retry-After", rlHeaderValue resetIn)]
      retryAfter := resetIn }
  else
    let newTs := pruned ++ [now]
    { entry := newTs
      admitted := true
      headers := [("X-RateLimit-Limit", toString cfg.limit),
                  ("X-RateLimit-Remaining", toString (cfg.limit - newTs.length))]
      retryAfter := none }

/-- Runs the middleware body over a sequence of request times against a
single key, starting from the stored timestamp list `st`; returns the
final stored timestamps together with the per-request outcomes in
order. -/
def rateLimitRun (cfg : RateLimitConfig) (st : List Int) : List Int → List Int × List RLStepResult
  | [] => (st, [])
  | now :: rest =>
    let r := rateLimitStep st cfg now
    let rec2 := rateLimitRun cfg r.entry rest
    (rec2.1, r :: rec2.2)

/-- Embeds `getConfigForPath` (lines 62-74): filter the configured
endpoint keys to those that are a prefix of the path, sort them longest
first, and take the rule of the first one; fall back to the global
config when none matches.  The endpoint record is embedded as an
association list of its keys in insertion order. -/
def getConfigForPath (path : String) (endpoints : List (String × RateLimitConfig))
    (dflt : RateLimitConfig) : RateLimitConfig :=
  let matching := (endpoints.map Prod.fst).filter (fun k => jsStartsWith path k)
  let sorted := matching.mergeSort (fun a b => b.length ≤ a.length)
  match sorted with
  | [] => dflt
  | k :: _ => ((endpoints.lookup k).getD dflt)

/-- Embeds `defaultKeyGenerator` (lines 79-84): client IP plus the first
three `/`-separated path segments. -/
def defaultKeyGenerator (ip path : String) : String :=
  ip ++ ":" ++ pathSegments path 3

/-- Embeds `RateLimitOptions` restricted to the data the construction
phase consumes; the key generator is embedded as a function of the
client IP and path (the two request inputs the default generator
reads). -/
structure RateLimitOptions where
  dflt : RateLimitConfig
  endpoints : List (String × RateLimitConfig)
  keyGenerator : Option (String → String → String)

/-- Result of constructing the middleware: the resolved key generator
and the options captured by the returned closure. -/
structure RateLimiterMW where
  keyGen : String → String → String
  options : RateLimitOptions

/-- Embeds the construction phase of `rateLimiter` (lines 104-110): it
resolves the key generator with `options.keyGenerator ?? defaultKeyGenerator`
and returns the middleware closure.  A thrown construction error would
be embedded as `Except.error`; the source performs no validation and has
no throw path, so every option record is accepted. -/
def rateLimiter (options : RateLimitOptions) : Except String RateLimiterMW :=
  Except.ok { keyGen := options.keyGenerator.getD defaultKeyGenerator, options := options }

/-! ## Traffic classifier (`middleware/metrics.ts`, suspicious patterns)

Each regular expression of `SUSPICIOUS_PATTERNS` is embedded as a
boolean test on strings together with the first 20 characters of its
`source` (the fragment the reason string quotes).  All patterns carry
the `i` flag; case-insensitive matching of these ASCII patterns is
embedded by lowercasing both sides. -/

/-- Lowercased character list of a string (embeds the `i` regex flag). -/
def lowerChars (s : String) : List Char := s.toList.map Char.toLower

/-- Unanchored substring test on character lists. -/
def containsSub (sub s : List Char) : Bool := s.tails.any (fun t => sub.isPrefixOf t)

/-- Embeds an unanchored case-insensitive literal regex alternative:
`/sub/i.test(s)`. -/
def containsCI (s sub : String) : Bool := containsSub (lowerChars sub) (lowerChars s)

/-- Embeds an end-anchored case-insensitive literal: `/sub$/i.test(s)`. -/
def endsWithCI (s sub : String) : Bool := (lowerChars sub).isSuffixOf (lowerChars s)

/-- Characters matched by an unflagged JavaScript regex `.` (anything
but a line terminator). -/
def jsDotChar (c : Char) : Bool := c != '\n' && c != '\r' && c != '\u2028' && c != '\u2029'

/-- Embeds `/a.*b/.test(s)` on character lists: an occurrence of `a`,
then a run of non-line-terminator characters, then an occurrence of
`b`. -/
def seqMatch (a b s : List Char) : Bool :=
  (List.range (s.length + 1)).any fun i =>
    a.isPrefixOf (s.drop i) &&
    ((List.range (s.length + 1)).any fun j =>
      ((s.drop (i + a.length)).take j).all jsDotChar &&
        b.isPrefixOf ((s.drop (i + a.length)).drop j))

/-- Embeds `/a.*b/i.test(s)`. -/
def seqMatchCI (s a b : String) : Bool := seqMatch (lowerChars a) (lowerChars b) (lowerChars s)

/-- One entry of the suspicious-pattern list: its test and the first 20
characters of its `source` (JavaScript `pattern.source.slice(0, 20)`). -/
structure SuspiciousPattern where
  test : String → Bool
  src20 : String

/-- Embeds `SUSPICIOUS_PATTERNS` (metrics source lines 10-21), in source
order:
1. `/\.(php|asp|aspx|jsp|cgi|pl)$/i`
2. `/wp-admin|wp-login|wp-content|wordpress/i`
3. `/phpmyadmin|adminer|pma/i`
4. `/\.env|\.git|\.htaccess|\.aws/i`
5. `/config\.json|package\.json|composer\.json/i`
6. `/\/\.\.|%2e%2e|%252e/i` (path traversal)
7. `/<script|javascript:|data:/i` (XSS attempts)
8. `/union.*select|insert.*into|drop.*table/i` (SQL injection)
9. `/nikto|sqlmap|nmap|masscan/i` (scanning tools)
10. `/gobuster|dirbuster|dirb|ffuf/i` (directory bruteforce) -/
def SUSPICIOUS_PATTERNS : List SuspiciousPattern :=
  [ ⟨fun s => [".php", ".asp", ".aspx", ".jsp", ".cgi", ".pl"].any (endsWithCI s),
      "\\.(php|asp|aspx|jsp|"⟩,
    ⟨fun s => ["wp-admin", "wp-login", "wp-content", "wordpress"].any (containsCI s),
      "wp-admin|wp-login|wp"⟩,
    ⟨fun s => ["phpmyadmin", "adminer", "pma"].any (containsCI s),
      "phpmyadmin|adminer|p"⟩,
    ⟨fun s => [".env", ".git", ".htaccess", ".aws"].any (containsCI s),
      "\\.env|\\.git|\\.htacce"⟩,
    ⟨fun s => ["config.json", "package.json", "composer.json"].any (containsCI s),
      "config\\.json|package"⟩,
    ⟨fun s => ["/..", "%2e%2e", "%252e"].any (containsCI s),
      "\\/\\.\\.|%2e%2e|%252e"⟩,
    ⟨fun s => ["<script", "javascript:", "data:"].any (containsCI s),
      "<script|javascript:|"⟩,
    ⟨fun s => [("union", "select"), ("insert", "into"), ("drop", "table")].any
        (fun p => seqMatchCI s p.1 p.2),
      "union.*select|insert"⟩,
    ⟨fun s => ["nikto", "sqlmap", "nmap", "masscan"].any (containsCI s),
      "nikto|sqlmap|nmap|ma"⟩,
    ⟨fun s => ["gobuster", "dirbuster", "dirb", "ffuf"].any (containsCI s),
      "gobuster|dirbuster|d"⟩ ]

/-- Recursion of `checkSuspicious` over the pattern list: for each
pattern in order, test the path first, then the user-agent; the first
hit yields the reason. -/
def checkSuspiciousGo : List SuspiciousPattern → String → String → Option String
  | [], _, _ => none
  | p :: rest, path, ua =>
    if p.test path then some ("path_match:" ++ p.src20)
    else if p.test ua then some ("ua_match:" ++ p.src20)
    else checkSuspiciousGo rest path ua

/-- Embeds `checkSuspicious` (metrics source lines 50-60); `none` embeds
`{ suspicious: false }` and `some reason` embeds
`{ suspicious: true, reason }`. -/
def checkSuspicious (path ua : String) : Option String :=
  checkSuspiciousGo SUSPICIOUS_PATTERNS path ua

/-! ## Metrics store (`middleware/metrics.ts`)

The aggregated-stats record holds three nested map objects which the
source mutates in place and which the `getAggregatedStats` accessor
copies only shallowly.  To capture that sharing, the nested maps live in
an explicit heap of cells addressed by `Nat`; the stats record stores
the three addresses.  A JavaScript object used as a counter map is
embedded as an association list of `(key, count)` pairs in insertion
order (object keys are strings, so the status code is stored under its
decimal string). -/

/-- One string-keyed counter-map object. -/
abbrev KVMap := List (String × Nat)

/-- Reads the map object at address `a` (out-of-range reads never occur
on worlds built by the definitions below). -/
def readCell (h : List KVMap) (a : Nat) : KVMap := h.getD a []

/-- Overwrites the map object at address `a`. -/
def writeCell (h : List KVMap) (a : Nat) (c : KVMap) : List KVMap := h.set a c

/-- Embeds the JavaScript property write `m[k] = v`: an existing key is
updated in place, a new key is appended in insertion order. -/
def setKey (m : KVMap) (k : String) (v : Nat) : KVMap :=
  if m.any (fun p => p.1 == k) then m.map (fun p => if p.1 == k then (k, v) else p)
  else m ++ [(k, v)]

/-- Embeds the JavaScript read `m[k] || 0`. -/
def getKeyOr0 (m : KVMap) (k : String) : Nat := (m.lookup k).getD 0

/-- Embeds `m[k] = (m[k] || 0) + 1`. -/
def bumpKey (m : KVMap) (k : String) : KVMap := setKey m k (getKeyOr0 m k + 1)

/-- Embeds `RequestMetric` (the record built by `metricsLogger`):
timestamps are abstract clock readings, the user-agent field holds the
already-truncated string. -/
structure RequestMetric where
  timestamp : Nat
  service : String
  method : String
  path : String
  status : Nat
  durationMs : Nat
  ip : String
  userAgent : String
  userId : Option String
  isBot : Bool
  isInternal : Bool
  isSuspicious : Bool
  suspiciousReason : Option String
deriving DecidableEq, Repr

/-- Embeds `AggregatedStats`; the three `requestsBy*` fields hold heap
addresses of the nested map objects, `lastUpdated` an abstract clock
reading. -/
structure StatsObj where
  totalRequests : Nat
  externalRequests : Nat
  internalRequests : Nat
  requestsByStatus : Nat
  requestsByPath : Nat
  requestsByIP : Nat
  botRequests : Nat
  suspiciousRequests : Nat
  avgDurationMs : ℚ
  lastUpdated : Nat
deriving DecidableEq, Repr

/-- Embeds `MetricsStore`. -/
structure MetricsStore where
  metrics : List RequestMetric
  stats : StatsObj
  maxMetrics : Nat
deriving DecidableEq, Repr

/-- A metrics store together with the heap holding its nested map
objects. -/
structure MetricsWorld where
  store : MetricsStore
  heap : List KVMap
deriving DecidableEq, Repr

/-- Embeds `createMetricsStore(maxMetrics)` (metrics source lines
25-42): fresh zeroed stats whose three nested maps are freshly
allocated empty objects; `clock` stands for the `new Date` reading. -/
def createMetricsStore (maxMetrics clock : Nat) (h : List KVMap) : MetricsWorld :=
  { store := { metrics := []
               stats := { totalRequests := 0
                          externalRequests := 0
                          internalRequests := 0
                          requestsByStatus := h.length
                          requestsByPath := h.length + 1
                          requestsByIP := h.length + 2
                          botRequests := 0
                          suspiciousRequests := 0
                          avgDurationMs := 0
                          lastUpdated := clock }
               maxMetrics := maxMetrics }
    heap := h ++ [[], [], []] }

/-- A fresh default store (`createMetricsStore()` on an empty heap). -/
def initMetricsWorld : MetricsWorld := createMetricsStore 1000 0 []

/-- Scalar half of `updateAggregatedStats` (metrics source lines 63-69,
83-92, in source order): counters, flag counts, the running average over
external traffic, and the timestamp; `clock` stands for the
`new Date().toISOString()` reading at line 92. -/
def updateStatsScalars (stats0 : StatsObj) (m : RequestMetric) (clock : Nat) : StatsObj :=
  let s1 := { stats0 with totalRequests := stats0.totalRequests + 1 }
  let s2 := if m.isInternal then { s1 with internalRequests := s1.internalRequests + 1 }
            else { s1 with externalRequests := s1.externalRequests + 1 }
  let s3 := if m.isBot then { s2 with botRequests := s2.botRequests + 1 } else s2
  let s4 := if m.isSuspicious then { s3 with suspiciousRequests := s3.suspiciousRequests + 1 }
            else s3
  let s5 := if m.isInternal then s4
            else
              let n : ℚ := s4.externalRequests
              { s4 with avgDurationMs := (s4.avgDurationMs * (n - 1) + (m.durationMs : ℚ)) / n }
  { s5 with lastUpdated := clock }

/-- Map half of `updateAggregatedStats` (metrics source lines 70-82):
the in-place mutations of the three nested map objects, addressed
through the stats record (whose address fields the scalar half never
touches): always count the status, and for external traffic count the
4-segment path prefix and — capped at 100 tracked IPs — the client
IP. -/
def updateHeapMaps (heap : List KVMap) (stats : StatsObj) (m : RequestMetric) : List KVMap :=
  let h1 := writeCell heap stats.requestsByStatus
              (bumpKey (readCell heap stats.requestsByStatus) (toString m.status))
  let h2 := if m.isInternal then h1
            else writeCell h1 stats.requestsByPath
                   (bumpKey (readCell h1 stats.requestsByPath) (pathSegments m.path 4))
  if m.isInternal then h2
  else
    let ipMap := readCell h2 stats.requestsByIP
    if ipMap.length < 100 ∨ getKeyOr0 ipMap m.ip ≠ 0 then
      writeCell h2 stats.requestsByIP (bumpKey ipMap m.ip)
    else h2

/-- Embeds `updateAggregatedStats(store, metric)` (metrics source lines
61-93): the scalar fields of the stats object are rebound, and the
nested map objects are mutated in place on the heap. -/
def updateAggregatedStats (w : MetricsWorld) (m : RequestMetric) (clock : Nat) : MetricsWorld :=
  { store := { w.store with stats := updateStatsScalars w.store.stats m clock }
    heap := updateHeapMaps w.heap w.store.stats m }

/-- Embeds the store mutation performed by the `metricsLogger`
middleware once a request completes (metrics source lines 127-131):
push the record, evict the oldest when the ring exceeds its capacity,
then update the aggregates. -/
def metricsLoggerRecord (w : MetricsWorld) (m : RequestMetric) (clock : Nat) : MetricsWorld :=
  let metrics1 := w.store.metrics ++ [m]
  let metrics2 := if metrics1.length > w.store.maxMetrics then metrics1.drop 1 else metrics1
  updateAggregatedStats { w with store := { w.store with metrics := metrics2 } } m clock

/-- A sequence of `record` calls (each with its clock reading) against a
fresh default store. -/
def recordAll (ms : List (RequestMetric × Nat)) : MetricsWorld :=
  ms.foldl (fun w p => metricsLoggerRecord w p.1 p.2) initMetricsWorld

/-- Embeds JavaScript `l.slice(-limit)` for a non-negative `limit`:
`slice(-0)` is `slice(0)`, the whole array; otherwise the last `limit`
elements. -/
def jsSliceLast {α : Type} (l : List α) (limit : Nat) : List α :=
  if limit = 0 then l else l.drop (l.length - limit)

/-- Embeds `getRecentMetrics(store, limit)` (metrics source lines
140-142). -/
def getRecentMetrics (w : MetricsWorld) (limit : Nat) : List RequestMetric :=
  jsSliceLast w.store.metrics limit

/-- Embeds `getAggregatedStats(store)` (metrics source lines 146-148):
`{ ...store.stats }` copies the fields of the stats object — including
the three addresses of the nested map objects, which are therefore
shared with the live store. -/
def getAggregatedStats (w : MetricsWorld) : StatsObj := w.store.stats

/-- Embeds `getSuspiciousRequests(store, limit)` (metrics source lines
152-154). -/
def getSuspiciousRequests (w : MetricsWorld) (limit : Nat) : List RequestMetric :=
  jsSliceLast (w.store.metrics.filter (fun m => m.isSuspicious)) limit

/-- Embeds `getRequestsByIP(store, ip, limit)` (metrics source lines
158-160). -/
def getRequestsByIP (w : MetricsWorld) (ip : String) (limit : Nat) : List RequestMetric :=
  jsSliceLast (w.store.metrics.filter (fun m => m.ip == ip)) limit

/-- Well-formedness of a metrics world reachable from a fresh default
store: the nested maps live at addresses 0, 1, 2 of a three-cell heap,
and the per-IP map has pairwise-distinct keys, at most 100 of them, all
with positive counts. -/
def MetricsInv (w : MetricsWorld) : Prop :=
  w.store.stats.requestsByStatus = 0 ∧
  w.store.stats.requestsByPath = 1 ∧
  w.store.stats.requestsByIP = 2 ∧
  w.heap.length = 3 ∧
  ((readCell w.heap 2).map Prod.fst).Nodup ∧
  (readCell w.heap 2).length ≤ 100 ∧
  ∀ p ∈ readCell w.heap 2, 1 ≤ p.2

/-! ## Sample request records used by concrete instances -/

/-- A representative external (non-internal) request record. -/
def sampleExternalMetric : RequestMetric :=
  { timestamp := 0, service := "svc", method := "GET", path := "/api/a/b/c", status := 200,
    durationMs := 100, ip := "203.0.113.7", userAgent := "curl/8", userId := none,
    isBot := false, isInternal := false, isSuspicious := false, suspiciousReason := none }

/-- A representative internal request record. -/
def sampleInternalMetric : RequestMetric :=
  { timestamp := 0, service := "svc", method := "GET", path := "/health", status := 200,
    durationMs := 5, ip := "127.0.0.1", userAgent := "probe", userId := none,
    isBot := false, isInternal := true, isSuspicious := false, suspiciousReason := none }

/-- The external sample with a chosen duration. -/
def extMetric (d : Nat) : RequestMetric := { sampleExternalMetric with durationMs := d }

/-! ## Helper lemmas: rate limiter -/

theorem rateLimitStep_deny (ts : List Int) (cfg : RateLimitConfig) (now : Int)
    (h : ((prune ts now (cfg.window * 1000)).length : Int) ≥ cfg.limit) :
    rateLimitStep ts cfg now =
      { entry := prune ts now (cfg.window * 1000)
        admitted := false
        headers := [("X-RateLimit-Limit", toString cfg.limit),
                    ("X-RateLimit-Remaining", "0"),
                    ("X-RateLimit-Reset",
                      rlHeaderValue (resetInOf (prune ts now (cfg.window * 1000)) (cfg.window * 1000) now)),
                    ("Retry-After",
                      rlHeaderValue (resetInOf (prune ts now (cfg.window * 1000)) (cfg.window * 1000) now))]
        retryAfter := resetInOf (prune ts now (cfg.window * 1000)) (cfg.window * 1000) now } := by
  simp only [rateLimitStep, if_pos h]

theorem rateLimitStepAllow (ts : List Int) (cfg : RateLimitConfig) (now : Int)
    (h : ((prune ts now (cfg.window * 1000)).length : Int) < cfg.limit) :
    rateLimitStep ts cfg now =
      { entry := prune ts now (cfg.window * 1000) ++ [now]
        admitted := true
        headers := [("X-RateLimit-Limit", toString cfg.limit),
                    ("X-RateLimit-Remaining",
                      toString (cfg.limit - ((prune ts now (cfg.window * 1000) ++ [now]).length : Int)))]
        retryAfter := none } := by
  simp only [rateLimitStep, if_neg (not_le.mpr h)]

theorem rateLimitRun_entry_le (cfg : RateLimitConfig) :
    ∀ (times st : List Int), (st.length : Int) ≤ cfg.limit →
      ∀ r ∈ (rateLimitRun cfg st times).2, (r.entry.length : Int) ≤ cfg.limit := by
  intro times
  induction times with
  | nil => intro st _ r hr; simp [rateLimitRun] at hr
  | cons now rest ih =>
    intro st hst r hr
    have hp : ((prune st now (cfg.window * 1000)).length : Int) ≤ cfg.limit := by
      have := List.length_filter_le (fun t => decide (now - t < cfg.window * 1000)) st
      have : ((prune st now (cfg.window * 1000)).length : Int) ≤ (st.length : Int) := by
        exact_mod_cast this
      omega
    have hstep : ((rateLimitStep st cfg now).entry.length : Int) ≤ cfg.limit := by
      by_cases hc : ((prune st now (cfg.window * 1000)).length : Int) ≥ cfg.limit
      · rw [rateLimitStep_deny st cfg now hc]; exact hp
      · push_neg at hc
        rw [rateLimitStepAllow st cfg now hc]
        simp only [List.length_append, List.length_cons, List.length_nil]
        push_cast
        omega
    simp only [rateLimitRun, List.mem_cons] at hr
    rcases hr with hr1 | hr1
    · subst hr1; exact hstep
    · exact ih (rateLimitStep st cfg now).entry hstep r hr1

theorem rateLimitRun_append (cfg : RateLimitConfig) (st : List Int) (xs ys : List Int) :
    rateLimitRun cfg st (xs ++ ys) =
      ((rateLimitRun cfg (rateLimitRun cfg st xs).1 ys).1,
       (rateLimitRun cfg st xs).2 ++ (rateLimitRun cfg (rateLimitRun cfg st xs).1 ys).2) := by
  induction xs generalizing st with
  | nil => simp [rateLimitRun]
  | cons now rest ih => simp [rateLimitRun, ih]

theorem rateLimitRun_allowAll (cfg : RateLimitConfig) :
    ∀ (suffix pre : List Int),
      (∀ a ∈ pre ++ suffix, ∀ b ∈ pre ++ suffix, a - b < cfg.window * 1000) →
      (((pre ++ suffix).length : Int)) ≤ cfg.limit →
      (rateLimitRun cfg pre suffix).1 = pre ++ suffix ∧
      (rateLimitRun cfg pre suffix).2.map (fun r => r.admitted) = List.replicate suffix.length true := by
  intro suffix
  induction suffix with
  | nil => intro pre _ _; simp [rateLimitRun]
  | cons now rest ih =>
    intro pre hspan hlen
    have hnowmem : now ∈ pre ++ now :: rest := by simp
    have hprune : prune pre now (cfg.window * 1000) = pre := by
      apply List.filter_eq_self.mpr
      intro t ht
      have : now - t < cfg.window * 1000 :=
        hspan now hnowmem t (List.mem_append_left _ ht)
      simpa using this
    have hlt : ((prune pre now (cfg.window * 1000)).length : Int) < cfg.limit := by
      rw [hprune]
      have : (pre.length : Int) + (rest.length : Int) + 1 ≤ cfg.limit := by
        have := hlen
        simp only [List.length_append, List.length_cons] at this
        push_cast at this
        omega
      omega
    have hstep := rateLimitStepAllow pre cfg now hlt
    have hspan' : ∀ a ∈ (pre ++ [now]) ++ rest, ∀ b ∈ (pre ++ [now]) ++ rest,
        a - b < cfg.window * 1000 := by
      intro a ha b hb
      rw [List.append_assoc] at ha hb
      exact hspan a (by simpa using ha) b (by simpa using hb)
    have hlen' : (((pre ++ [now]) ++ rest).length : Int) ≤ cfg.limit := by
      have := hlen
      simp only [List.length_append, List.length_cons, List.length_nil] at this ⊢
      push_cast at this ⊢
      omega
    have ihres := ih (pre ++ [now]) hspan' hlen'
    have hentry : (rateLimitStep pre cfg now).entry = pre ++ [now] := by
      rw [hstep]
      show prune pre now (cfg.window * 1000) ++ [now] = pre ++ [now]
      rw [hprune]
    have hadm : (rateLimitStep pre cfg now).admitted = true := by rw [hstep]
    refine ⟨?_, ?_⟩
    · simp only [rateLimitRun]
      rw [hentry, ihres.1, List.append_assoc]
      rfl
    · simp only [rateLimitRun, List.map_cons]
      rw [hentry, hadm, ihres.2]
      simp [List.replicate_succ]

theorem jsCeilDiv_spec (a : Int) :
    1000 * (jsCeilDiv a 1000 - 1) < a ∧ a ≤ 1000 * jsCeilDiv a 1000 := by
  unfold jsCeilDiv
  omega

/-- C1: for every key and every request sequence against a fixed policy,
the timestamps retained after pruning never exceed the configured limit;
with exactly `limit` requests all inside one window, every one of them
is admitted and recorded, and a further request in the same window is
denied without its timestamp being recorded. -/
theorem claim_C1 (cfg : RateLimitConfig) (hL : 0 ≤ cfg.limit) :
    (∀ times : List Int, ∀ r ∈ (rateLimitRun cfg [] times).2,
      (r.entry.length : Int) ≤ cfg.limit) ∧
    (∀ (ts : List Int) (tExtra : Int),
      (ts.length : Int) = cfg.limit →
      (∀ a ∈ ts ++ [tExtra], ∀ b ∈ ts ++ [tExtra], a - b < cfg.window * 1000) →
      (rateLimitRun cfg [] (ts ++ [tExtra])).2.map (fun r => r.admitted)
          = List.replicate ts.length true ++ [false] ∧
      (rateLimitRun cfg [] (ts ++ [tExtra])).1 = ts) := by
  constructor
  · intro times
    exact rateLimitRun_entry_le cfg times [] (by simpa using hL)
  · intro ts tExtra hlen hspan
    have hspanTs : ∀ a ∈ ([] : List Int) ++ ts, ∀ b ∈ ([] : List Int) ++ ts,
        a - b < cfg.window * 1000 := by
      intro a ha b hb
      exact hspan a (List.mem_append_left _ (by simpa using ha))
        b (List.mem_append_left _ (by simpa using hb))
    have hlenTs : ((([] : List Int) ++ ts).length : Int) ≤ cfg.limit := by
      simpa using le_of_eq hlen
    have hrunTs := rateLimitRun_allowAll cfg ts [] hspanTs hlenTs
    have happ := rateLimitRun_append cfg [] ts [tExtra]
    have hst : (rateLimitRun cfg [] ts).1 = ts := by simpa using hrunTs.1
    have hpruneLast : prune ts tExtra (cfg.window * 1000) = ts := by
      apply List.filter_eq_self.mpr
      intro t ht
      have : tExtra - t < cfg.window * 1000 :=
        hspan tExtra (List.mem_append_right _ (by simp))
          t (List.mem_append_left _ ht)
      simpa using this
    have hge : ((prune ts tExtra (cfg.window * 1000)).length : Int) ≥ cfg.limit := by
      rw [hpruneLast, hlen]
    have hstepLast := rateLimitStep_deny ts cfg tExtra hge
    have hentryLast : (rateLimitStep ts cfg tExtra).entry = ts := by
      rw [hstepLast]
      show prune ts tExtra (cfg.window * 1000) = ts
      exact hpruneLast
    have hadmLast : (rateLimitStep ts cfg tExtra).admitted = false := by rw [hstepLast]
    constructor
    · rw [happ, hst]
      simp only [List.map_append]
      rw [hrunTs.2]
      have : (rateLimitRun cfg ts [tExtra]).2 = [rateLimitStep ts cfg tExtra] := by
        simp [rateLimitRun]
      rw [this]
      simp [hadmLast, hlen]
    · rw [happ, hst]
      simp only [rateLimitRun]
      rw [hentryLast]

/-- Witness for C1 at the concrete policy `{limit: 2, window: 10}` and
request times 0ms, 500ms, 1000ms. -/
theorem claim_C1_witness :
    (∀ r ∈ (rateLimitRun ⟨2, 10⟩ [] [0, 500, 1000]).2, (r.entry.length : Int) ≤ 2) ∧
    (rateLimitRun ⟨2, 10⟩ [] ([0, 500] ++ [1000])).2.map (fun r => r.admitted)
        = List.replicate 2 true ++ [false] ∧
    (rateLimitRun ⟨2, 10⟩ [] ([0, 500] ++ [1000])).1 = [0, 500] := by
  refine ⟨(claim_C1 ⟨2, 10⟩ (by decide)).1 [0, 500, 1000], ?_⟩
  exact (claim_C1 ⟨2, 10⟩ (by decide)).2 [0, 500] 1000 (by decide) (by decide)

/-- C2: a denied request reports a reset value that is exactly the
ceiling of `(oldestSurvivingTimestamp + windowMs - now) / 1000`; with
the policy `{limit: 2, window: 10s}`, three requests from one key within
one second give admit, admit, deny, and the denial carries a
`resetAfterSeconds` strictly positive and at most 10. -/
theorem claim_C2 :
    (∀ (ts : List Int) (cfg : RateLimitConfig) (now oldest : Int),
      (rateLimitStep ts cfg now).admitted = false →
      (prune ts now (cfg.window * 1000)).min? = some oldest →
      ∃ k, (rateLimitStep ts cfg now).retryAfter = some k ∧
        1000 * (k - 1) < oldest + cfg.window * 1000 - now ∧
        oldest + cfg.window * 1000 - now ≤ 1000 * k) ∧
    (∀ t1 t2 t3 : Int, t1 ≤ t2 → t2 ≤ t3 → t3 - t1 ≤ 1000 →
      (rateLimitRun ⟨2, 10⟩ [] [t1, t2, t3]).2.map (fun r => r.admitted)
          = [true, true, false] ∧
      ∃ k, (rateLimitRun ⟨2, 10⟩ [] [t1, t2, t3]).2.map (fun r => r.retryAfter)
          = [none, none, some k] ∧ 0 < k ∧ k ≤ 10) := by
  constructor
  · intro ts cfg now oldest hden hmin
    by_cases hc : ((prune ts now (cfg.window * 1000)).length : Int) ≥ cfg.limit
    · have hstep := rateLimitStep_deny ts cfg now hc
      have hret : (rateLimitStep ts cfg now).retryAfter
          = resetInOf (prune ts now (cfg.window * 1000)) (cfg.window * 1000) now := by
        rw [hstep]
      rw [hret]
      unfold resetInOf
      rw [hmin]
      exact ⟨jsCeilDiv (oldest + cfg.window * 1000 - now) 1000, rfl,
        (jsCeilDiv_spec _).1, (jsCeilDiv_spec _).2⟩
    · push_neg at hc
      rw [rateLimitStepAllow ts cfg now hc] at hden
      simp at hden
  · intro t1 t2 t3 h12 h23 hspan
    have hs1 := rateLimitStepAllow [] ⟨2, 10⟩ t1 (by simp [prune])
    have entry1 : (rateLimitStep [] ⟨2, 10⟩ t1).entry = [t1] := by
      rw [hs1]
      show prune [] t1 _ ++ [t1] = [t1]
      simp [prune]
    have hp2 : prune [t1] t2 ((10 : Int) * 1000) = [t1] := by
      apply List.filter_eq_self.mpr
      intro t ht
      rw [List.mem_singleton] at ht
      subst ht
      simp only [decide_eq_true_eq]
      omega
    have hlt2 : ((prune [t1] t2 ((10 : Int) * 1000)).length : Int) < (2 : Int) := by
      rw [hp2]; simp
    have hs2 := rateLimitStepAllow [t1] ⟨2, 10⟩ t2 hlt2
    have entry2 : (rateLimitStep [t1] ⟨2, 10⟩ t2).entry = [t1, t2] := by
      rw [hs2]
      show prune [t1] t2 _ ++ [t2] = [t1, t2]
      rw [hp2]
      rfl
    have hp3 : prune [t1, t2] t3 ((10 : Int) * 1000) = [t1, t2] := by
      apply List.filter_eq_self.mpr
      intro t ht
      simp only [List.mem_cons, List.mem_singleton, List.not_mem_nil, or_false] at ht
      rcases ht with h | h <;> subst h <;> simp only [decide_eq_true_eq] <;> omega
    have hge3 : ((prune [t1, t2] t3 ((10 : Int) * 1000)).length : Int) ≥ (2 : Int) := by
      rw [hp3]; simp
    have hs3 := rateLimitStep_deny [t1, t2] ⟨2, 10⟩ t3 hge3
    have adm1 : (rateLimitStep [] ⟨2, 10⟩ t1).admitted = true := by rw [hs1]
    have adm2 : (rateLimitStep [t1] ⟨2, 10⟩ t2).admitted = true := by rw [hs2]
    have adm3 : (rateLimitStep [t1, t2] ⟨2, 10⟩ t3).admitted = false := by rw [hs3]
    have ret1 : (rateLimitStep [] ⟨2, 10⟩ t1).retryAfter = none := by rw [hs1]
    have ret2 : (rateLimitStep [t1] ⟨2, 10⟩ t2).retryAfter = none := by rw [hs2]
    have ret3 : (rateLimitStep [t1, t2] ⟨2, 10⟩ t3).retryAfter
        = some (jsCeilDiv (t1 + (10 : Int) * 1000 - t3) 1000) := by
      rw [hs3]
      show resetInOf (prune [t1, t2] t3 _) _ t3 = _
      rw [hp3]
      unfold resetInOf
      have : ([t1, t2] : List Int).min? = some (min t1 t2) := by
        simp [List.min?]
      rw [this, min_eq_left h12]
      rfl
    have hrun : (rateLimitRun ⟨2, 10⟩ [] [t1, t2, t3]).2
        = [rateLimitStep [] ⟨2, 10⟩ t1, rateLimitStep [t1] ⟨2, 10⟩ t2,
           rateLimitStep [t1, t2] ⟨2, 10⟩ t3] := by
      simp only [rateLimitRun, entry1, entry2]
    constructor
    · rw [hrun]
      simp [adm1, adm2, adm3]
    · refine ⟨jsCeilDiv (t1 + (10 : Int) * 1000 - t3) 1000, ?_, ?_, ?_⟩
      · rw [hrun]
        simp [ret1, ret2, ret3]
      · have hspec := jsCeilDiv_spec (t1 + (10 : Int) * 1000 - t3)
        omega
      · have hspec := jsCeilDiv_spec (t1 + (10 : Int) * 1000 - t3)
        omega

/-- Witness for C2: the deny at time 1000ms with stored timestamps 0 and
500 under `{limit: 2, window: 10}` reports reset 9, and the concrete
three-request scenario at times 0, 500, 1000. -/
theorem claim_C2_witness :
    (∃ k, (rateLimitStep [0, 500] ⟨2, 10⟩ 1000).retryAfter = some k ∧
      1000 * (k - 1) < 0 + (⟨2, 10⟩ : RateLimitConfig).window * 1000 - 1000 ∧
      0 + (⟨2, 10⟩ : RateLimitConfig).window * 1000 - 1000 ≤ 1000 * k) ∧
    (rateLimitRun ⟨2, 10⟩ [] [0, 500, 1000]).2.map (fun r => r.admitted)
        = [true, true, false] := by
  refine ⟨claim_C2.1 [0, 500] ⟨2, 10⟩ 1000 0 (by decide) (by decide), ?_⟩
  exact (claim_C2.2 0 500 1000 (by decide) (by decide) (by decide)).1

/-! ## Helper lemmas: policy resolution -/

theorem lookup_of_mem_keys :
    ∀ (l : List (String × RateLimitConfig)) (k : String),
      k ∈ l.map Prod.fst → ∃ c, l.lookup k = some c ∧ (k, c) ∈ l := by
  intro l
  induction l with
  | nil => intro k hk; simp at hk
  | cons p t ih =>
    obtain ⟨a, b⟩ := p
    intro k hk
    by_cases h : k = a
    · subst h
      exact ⟨b, by simp [List.lookup], by simp⟩
    · have hk' : k ∈ t.map Prod.fst := by
        simpa [h] using hk
      obtain ⟨c, hl, hm⟩ := ih k hk'
      refine ⟨c, ?_, List.mem_cons_of_mem _ hm⟩
      have hbeq : (k == a) = false := beq_eq_false_iff_ne.mpr h
      simpa [List.lookup, hbeq] using hl

theorem mergeSort_desc_head_max (l : List String) (k : String) (tl : List String)
    (h : l.mergeSort (fun a b => b.length ≤ a.length) = k :: tl) :
    k ∈ l ∧ ∀ x ∈ l, x.length ≤ k.length := by
  have htrans : ∀ a b c : String, decide (b.length ≤ a.length) = true →
      decide (c.length ≤ b.length) = true → decide (c.length ≤ a.length) = true := by
    intro a b c hab hbc
    simp only [decide_eq_true_eq] at hab hbc ⊢
    omega
  have htotal : ∀ a b : String,
      (decide (b.length ≤ a.length) || decide (a.length ≤ b.length)) = true := by
    intro a b
    simp only [Bool.or_eq_true, decide_eq_true_eq]
    omega
  have hsorted := @List.sorted_mergeSort String
      (fun a b => decide (b.length ≤ a.length)) htrans htotal l
  have hperm := List.mergeSort_perm l (fun a b => decide (b.length ≤ a.length))
  rw [h] at hsorted hperm
  constructor
  · exact hperm.mem_iff.mp (List.mem_cons_self _ _)
  · intro x hx
    have hx' : x ∈ k :: tl := hperm.mem_iff.mpr hx
    rcases List.mem_cons.mp hx' with h1 | h1
    · subst h1; exact le_refl _
    · have := (List.pairwise_cons.mp hsorted).1 x h1
      simpa using this

theorem getConfigForPath_of_head (path : String)
    (endpoints : List (String × RateLimitConfig)) (dflt : RateLimitConfig)
    (k : String) (tl : List String)
    (hms : ((endpoints.map Prod.fst).filter (fun s => jsStartsWith path s)).mergeSort
        (fun a b => b.length ≤ a.length) = k :: tl) :
    getConfigForPath path endpoints dflt = (endpoints.lookup k).getD dflt := by
  simp only [getConfigForPath]
  rw [hms]

theorem getConfigForPath_of_nil (path : String)
    (endpoints : List (String × RateLimitConfig)) (dflt : RateLimitConfig)
    (hms : (endpoints.map Prod.fst).filter (fun s => jsStartsWith path s) = []) :
    getConfigForPath path endpoints dflt = dflt := by
  simp only [getConfigForPath]
  rw [hms, List.mergeSort_nil]

/-- C3: policy resolution returns the rule of a configured prefix of
maximal length among those that prefix the request path, and the global
config when none matches; with overlapping prefixes `/api` and
`/api/auth`, a request to `/api/auth/login` resolves to the `/api/auth`
rule. -/
theorem claim_C3 :
    (∀ (path : String) (endpoints : List (String × RateLimitConfig))
        (dflt : RateLimitConfig),
      (∀ p ∈ endpoints, jsStartsWith path p.1 = false) →
      getConfigForPath path endpoints dflt = dflt) ∧
    (∀ (path : String) (endpoints : List (String × RateLimitConfig))
        (dflt : RateLimitConfig) (p : String × RateLimitConfig),
      p ∈ endpoints → jsStartsWith path p.1 = true →
      ∃ q, q ∈ endpoints ∧ jsStartsWith path q.1 = true ∧
        getConfigForPath path endpoints dflt = q.2 ∧
        ∀ r ∈ endpoints, jsStartsWith path r.1 = true → r.1.length ≤ q.1.length) ∧
    (∀ cA cB dflt : RateLimitConfig,
      getConfigForPath "/api/auth/login" [("/api", cA), ("/api/auth", cB)] dflt = cB) := by
  have hpart2 : ∀ (path : String) (endpoints : List (String × RateLimitConfig))
      (dflt : RateLimitConfig) (p : String × RateLimitConfig),
      p ∈ endpoints → jsStartsWith path p.1 = true →
      ∃ q, q ∈ endpoints ∧ jsStartsWith path q.1 = true ∧
        getConfigForPath path endpoints dflt = q.2 ∧
        ∀ r ∈ endpoints, jsStartsWith path r.1 = true → r.1.length ≤ q.1.length := by
    intro path endpoints dflt p hp hps
    have hpM : p.1 ∈ (endpoints.map Prod.fst).filter (fun s => jsStartsWith path s) :=
      List.mem_filter.mpr ⟨List.mem_map_of_mem _ hp, hps⟩
    rcases hms : ((endpoints.map Prod.fst).filter (fun s => jsStartsWith path s)).mergeSort
        (fun a b => b.length ≤ a.length) with _ | ⟨k, tl⟩
    · exfalso
      have hperm := List.mergeSort_perm
        ((endpoints.map Prod.fst).filter (fun s => jsStartsWith path s))
        (fun a b => decide (b.length ≤ a.length))
      rw [hms] at hperm
      rw [List.perm_nil.mp hperm.symm] at hpM
      simp at hpM
    · obtain ⟨hkM, hmax⟩ := mergeSort_desc_head_max _ k tl hms
      have hkM' := List.mem_filter.mp hkM
      obtain ⟨c, hlook, hmem⟩ := lookup_of_mem_keys endpoints k hkM'.1
      refine ⟨(k, c), hmem, hkM'.2, ?_, ?_⟩
      · rw [getConfigForPath_of_head path endpoints dflt k tl hms, hlook]
        rfl
      · intro r hr hrs
        exact hmax r.1 (List.mem_filter.mpr ⟨List.mem_map_of_mem _ hr, hrs⟩)
  refine ⟨?_, hpart2, ?_⟩
  · intro path endpoints dflt hnone
    apply getConfigForPath_of_nil
    rw [List.filter_eq_nil_iff]
    intro k hk
    obtain ⟨p, hpmem, hpk⟩ := List.mem_map.mp hk
    rw [← hpk]
    simp [hnone p hpmem]
  · intro cA cB dflt
    obtain ⟨q, hqmem, hqs, hres, hqmax⟩ :=
      hpart2 "/api/auth/login" [("/api", cA), ("/api/auth", cB)] dflt
        ("/api/auth", cB) (by simp)
        (show jsStartsWith "/api/auth/login" "/api/auth" = true by decide)
    have hq2 : q = ("/api", cA) ∨ q = ("/api/auth", cB) := by
      simpa using hqmem
    rcases hq2 with h | h
    · exfalso
      have h9 := hqmax ("/api/auth", cB) (by simp)
        (show jsStartsWith "/api/auth/login" "/api/auth" = true by decide)
      rw [h] at h9
      have h9' : ("/api/auth" : String).length ≤ ("/api" : String).length := h9
      exact absurd h9' (by decide)
    · rw [hres, h]

/-- Witness for C3 at the documented override table
`{'/api': {100, 60}, '/api/auth': {10, 60}}`. -/
theorem claim_C3_witness :
    (∃ q, q ∈ [("/api", RateLimitConfig.mk 100 60), ("/api/auth", RateLimitConfig.mk 10 60)] ∧
      jsStartsWith "/api/auth/login" q.1 = true ∧
      getConfigForPath "/api/auth/login"
          [("/api", RateLimitConfig.mk 100 60), ("/api/auth", RateLimitConfig.mk 10 60)]
          (RateLimitConfig.mk 1 1) = q.2 ∧
      ∀ r ∈ [("/api", RateLimitConfig.mk 100 60), ("/api/auth", RateLimitConfig.mk 10 60)],
        jsStartsWith "/api/auth/login" r.1 = true → r.1.length ≤ q.1.length) ∧
    getConfigForPath "/nope" [] (RateLimitConfig.mk 1 1) = RateLimitConfig.mk 1 1 := by
  constructor
  · exact claim_C3.2.1 "/api/auth/login"
      [("/api", RateLimitConfig.mk 100 60), ("/api/auth", RateLimitConfig.mk 10 60)]
      (RateLimitConfig.mk 1 1) ("/api", RateLimitConfig.mk 100 60) (by simp)
      (show jsStartsWith "/api/auth/login" "/api" = true by decide)
  · exact claim_C3.1 "/nope" [] (RateLimitConfig.mk 1 1) (by simp)

/-- Counterexample for C4: at the concrete admitted request (empty
window, policy `{limit: 2, window: 10}`, time 0) the evaluation admits
the request but does not set the reset metadata, contradicting the
claim that all three of limit, remaining and reset are set regardless of
admit/deny. -/
theorem claim_C4_counterexample :
    (rateLimitStep [] ⟨2, 10⟩ 0).admitted = true ∧
    "X-RateLimit-Reset" ∉ ((rateLimitStep [] ⟨2, 10⟩ 0).headers.map Prod.fst) := by
  decide

/-- C4 as amended: on deny the evaluation sets limit, remaining, reset
and retry-after (with retry-after equal to reset and remaining `"0"`);
on admit it sets only limit and remaining — no reset and no retry-after
header is set on admitted requests. -/
theorem claim_C4_amended (ts : List Int) (cfg : RateLimitConfig) (now : Int) :
    ((rateLimitStep ts cfg now).admitted = false →
      (rateLimitStep ts cfg now).headers.map Prod.fst =
        ["X-RateLimit-Limit", "X-RateLimit-Remaining", "X-RateLimit-Reset", "Retry-After"] ∧
      (rateLimitStep ts cfg now).headers.lookup "X-RateLimit-Remaining" = some "0" ∧
      (rateLimitStep ts cfg now).headers.lookup "Retry-After"
        = (rateLimitStep ts cfg now).headers.lookup "X-RateLimit-Reset" ∧
      (rateLimitStep ts cfg now).headers.lookup "X-RateLimit-Reset"
        = some (rlHeaderValue (rateLimitStep ts cfg now).retryAfter)) ∧
    ((rateLimitStep ts cfg now).admitted = true →
      (rateLimitStep ts cfg now).headers.map Prod.fst =
        ["X-RateLimit-Limit", "X-RateLimit-Remaining"] ∧
      (rateLimitStep ts cfg now).headers.lookup "X-RateLimit-Reset" = none ∧
      (rateLimitStep ts cfg now).headers.lookup "Retry-After" = none) := by
  by_cases hc : ((prune ts now (cfg.window * 1000)).length : Int) ≥ cfg.limit
  · rw [rateLimitStep_deny ts cfg now hc]
    refine ⟨fun _ => ?_, fun hadm => by simp at hadm⟩
    refine ⟨by simp, ?_, ?_, ?_⟩ <;> simp [List.lookup]
  · push_neg at hc
    rw [rateLimitStepAllow ts cfg now hc]
    refine ⟨fun hden => by simp at hden, fun _ => ?_⟩
    refine ⟨by simp, ?_, ?_⟩ <;> simp [List.lookup]

/-- Witness for C4's amended statement at a concrete deny and a concrete
admit. -/
theorem claim_C4_amended_witness :
    ((rateLimitStep [0, 500] ⟨2, 10⟩ 1000).headers.map Prod.fst =
      ["X-RateLimit-Limit", "X-RateLimit-Remaining", "X-RateLimit-Reset", "Retry-After"] ∧
      (rateLimitStep [0, 500] ⟨2, 10⟩ 1000).headers.lookup "X-RateLimit-Remaining" = some "0" ∧
      (rateLimitStep [0, 500] ⟨2, 10⟩ 1000).headers.lookup "Retry-After"
        = (rateLimitStep [0, 500] ⟨2, 10⟩ 1000).headers.lookup "X-RateLimit-Reset" ∧
      (rateLimitStep [0, 500] ⟨2, 10⟩ 1000).headers.lookup "X-RateLimit-Reset"
        = some (rlHeaderValue (rateLimitStep [0, 500] ⟨2, 10⟩ 1000).retryAfter)) ∧
    ((rateLimitStep [] ⟨2, 10⟩ 0).headers.map Prod.fst =
      ["X-RateLimit-Limit", "X-RateLimit-Remaining"] ∧
      (rateLimitStep [] ⟨2, 10⟩ 0).headers.lookup "X-RateLimit-Reset" = none ∧
      (rateLimitStep [] ⟨2, 10⟩ 0).headers.lookup "Retry-After" = none) := by
  constructor
  · exact (claim_C4_amended [0, 500] ⟨2, 10⟩ 1000).1 (by decide)
  · exact (claim_C4_amended [] ⟨2, 10⟩ 0).2 (by decide)

/-- Counterexample for C5: constructing the rate limiter with the
invalid policy `{limit: 0, window: 0}` does not fail — the construction
returns the middleware, so invalid configuration is accepted rather
than rejected with a fatal error. -/
theorem claim_C5_counterexample :
    rateLimiter { dflt := ⟨0, 0⟩, endpoints := [], keyGenerator := none } =
      Except.ok { keyGen := defaultKeyGenerator,
                  options := { dflt := ⟨0, 0⟩, endpoints := [], keyGenerator := none } } := rfl

/-- C5 as amended: construction never validates and never fails — every
option record (including non-positive limits and windows) is accepted —
and a non-positive limit takes effect at evaluation time by denying
every request. -/
theorem claim_C5_amended :
    (∀ options : RateLimitOptions, ∃ mw, rateLimiter options = Except.ok mw) ∧
    (∀ (ts : List Int) (cfg : RateLimitConfig) (now : Int), cfg.limit ≤ 0 →
      (rateLimitStep ts cfg now).admitted = false) := by
  constructor
  · intro options
    exact ⟨_, rfl⟩
  · intro ts cfg now hL
    have hge : ((prune ts now (cfg.window * 1000)).length : Int) ≥ cfg.limit := by
      have : (0 : Int) ≤ ((prune ts now (cfg.window * 1000)).length : Int) := Int.ofNat_nonneg _
      omega
    rw [rateLimitStep_deny ts cfg now hge]

/-- Witness for C5's amended statement: the zero-limit policy denies the
very first request. -/
theorem claim_C5_amended_witness :
    (∃ mw, rateLimiter { dflt := ⟨0, 0⟩, endpoints := [], keyGenerator := none }
        = Except.ok mw) ∧
    (rateLimitStep [] ⟨0, 0⟩ 5).admitted = false := by
  constructor
  · exact claim_C5_amended.1 { dflt := ⟨0, 0⟩, endpoints := [], keyGenerator := none }
  · exact claim_C5_amended.2 [] ⟨0, 0⟩ 5 (by decide)

/-! ## Helper lemmas: suspicious classification -/

theorem checkSuspiciousGo_none :
    ∀ (ps : List SuspiciousPattern) (path ua : String),
      (∀ p ∈ ps, p.test path = false ∧ p.test ua = false) →
      checkSuspiciousGo ps path ua = none := by
  intro ps
  induction ps with
  | nil => intro path ua _; rfl
  | cons p rest ih =>
    intro path ua h
    have hp := h p (List.mem_cons_self _ _)
    simp only [checkSuspiciousGo, hp.1, hp.2]
    simp only [Bool.false_eq_true, if_false]
    exact ih path ua (fun q hq => h q (List.mem_cons_of_mem _ hq))

theorem checkSuspiciousGo_skip :
    ∀ (ps1 rest : List SuspiciousPattern) (path ua : String),
      (∀ q ∈ ps1, q.test path = false ∧ q.test ua = false) →
      checkSuspiciousGo (ps1 ++ rest) path ua = checkSuspiciousGo rest path ua := by
  intro ps1
  induction ps1 with
  | nil => intro rest path ua _; rfl
  | cons p t ih =>
    intro rest path ua h
    have hp := h p (List.mem_cons_self _ _)
    simp only [List.cons_append, checkSuspiciousGo, hp.1, hp.2]
    simp only [Bool.false_eq_true, if_false]
    exact ih rest path ua (fun q hq => h q (List.mem_cons_of_mem _ hq))

/-- C6: the pattern list is scanned top to bottom and for each pattern
the path is tested before the user-agent; the first hit fixes the
result, whose reason is the matching side tag followed by the first 20
characters of the pattern source; with no hit the request is not
suspicious; and for the path `/../../etc/passwd`, whenever no earlier
pattern matches the user-agent, the request is flagged with a reason
prefixed `path_match:`. -/
theorem claim_C6 :
    (∀ path ua : String,
      (∀ p ∈ SUSPICIOUS_PATTERNS, p.test path = false ∧ p.test ua = false) →
      checkSuspicious path ua = none) ∧
    (∀ (path ua : String) (ps1 : List SuspiciousPattern) (p : SuspiciousPattern)
        (ps2 : List SuspiciousPattern),
      SUSPICIOUS_PATTERNS = ps1 ++ p :: ps2 →
      (∀ q ∈ ps1, q.test path = false ∧ q.test ua = false) →
      (p.test path || p.test ua) = true →
      checkSuspicious path ua =
        some ((if p.test path then "path_match:" else "ua_match:") ++ p.src20)) ∧
    (∀ ua : String,
      (∀ q ∈ SUSPICIOUS_PATTERNS.take 5, q.test ua = false) →
      checkSuspicious "/../../etc/passwd" ua =
        some ("path_match:" ++ "\\/\\.\\.|%2e%2e|%252e")) := by
  have hpart2 : ∀ (path ua : String) (ps1 : List SuspiciousPattern) (p : SuspiciousPattern)
      (ps2 : List SuspiciousPattern),
      SUSPICIOUS_PATTERNS = ps1 ++ p :: ps2 →
      (∀ q ∈ ps1, q.test path = false ∧ q.test ua = false) →
      (p.test path || p.test ua) = true →
      checkSuspicious path ua =
        some ((if p.test path then "path_match:" else "ua_match:") ++ p.src20) := by
    intro path ua ps1 p ps2 hsplit hskip hhit
    unfold checkSuspicious
    rw [hsplit, checkSuspiciousGo_skip ps1 (p :: ps2) path ua hskip]
    cases hp : p.test path with
    | true => simp only [checkSuspiciousGo, hp, if_true]
    | false =>
      have hua : p.test ua = true := by
        rw [hp] at hhit
        simpa using hhit
      simp only [checkSuspiciousGo, hp, hua]
      simp
  refine ⟨?_, hpart2, ?_⟩
  · intro path ua h
    exact checkSuspiciousGo_none SUSPICIOUS_PATTERNS path ua h
  · intro ua hua
    have hsplit : SUSPICIOUS_PATTERNS = SUSPICIOUS_PATTERNS.take 5 ++
        (⟨fun s => ["/..", "%2e%2e", "%252e"].any (containsCI s),
          "\\/\\.\\.|%2e%2e|%252e"⟩ : SuspiciousPattern) :: SUSPICIOUS_PATTERNS.drop 6 := rfl
    have hskip : ∀ q ∈ SUSPICIOUS_PATTERNS.take 5,
        q.test "/../../etc/passwd" = false ∧ q.test ua = false := by
      intro q hq
      refine ⟨?_, hua q hq⟩
      revert q hq
      decide
    have hres := hpart2 "/../../etc/passwd" ua (SUSPICIOUS_PATTERNS.take 5)
      (⟨fun s => ["/..", "%2e%2e", "%252e"].any (containsCI s),
        "\\/\\.\\.|%2e%2e|%252e"⟩ : SuspiciousPattern)
      (SUSPICIOUS_PATTERNS.drop 6) hsplit hskip
      (by rw [Bool.or_eq_true]; exact Or.inl (by decide))
    rw [hres]
    norm_num
    decide

/-- Witness for C6 at the empty user-agent. -/
theorem claim_C6_witness :
    checkSuspicious "/../../etc/passwd" "" =
      some ("path_match:" ++ "\\/\\.\\.|%2e%2e|%252e") :=
  claim_C6.2.2 "" (by decide)

/-! ## Helper lemmas: heap cells and counter maps -/

theorem getD_set_self : ∀ (h : List KVMap) (a : Nat) (c : KVMap), a < h.length →
    (h.set a c).getD a [] = c := by
  intro h
  induction h with
  | nil => intro a c ha; simp at ha
  | cons x t ih =>
    intro a c ha
    cases a with
    | zero => rfl
    | succ a => exact ih a c (by simpa using ha)

theorem getD_set_ne : ∀ (h : List KVMap) (a b : Nat) (c : KVMap), a ≠ b →
    (h.set a c).getD b [] = h.getD b [] := by
  intro h
  induction h with
  | nil => intro a b c _; rfl
  | cons x t ih =>
    intro a b c hne
    cases a with
    | zero =>
      cases b with
      | zero => exact absurd rfl hne
      | succ b => rfl
    | succ a =>
      cases b with
      | zero => rfl
      | succ b => exact ih a b c (fun he => hne (congrArg Nat.succ he))

theorem readCell_writeCell_self (h : List KVMap) (a : Nat) (c : KVMap) (ha : a < h.length) :
    readCell (writeCell h a c) a = c :=
  getD_set_self h a c ha

theorem readCell_writeCell_ne (h : List KVMap) (a b : Nat) (c : KVMap) (hne : a ≠ b) :
    readCell (writeCell h a c) b = readCell h b :=
  getD_set_ne h a b c hne

theorem writeCell_length (h : List KVMap) (a : Nat) (c : KVMap) :
    (writeCell h a c).length = h.length :=
  List.length_set h a c

theorem setKey_map_fst_of_present (m : KVMap) (k : String) (v : Nat)
    (h : m.any (fun p => p.1 == k) = true) :
    (setKey m k v).map Prod.fst = m.map Prod.fst := by
  unfold setKey
  rw [if_pos h, List.map_map]
  apply List.map_congr_left
  intro p _
  by_cases hp : p.1 = k
  · simp [hp]
  · simp [Function.comp, beq_eq_false_iff_ne.mpr hp]

theorem setKey_map_fst_of_absent (m : KVMap) (k : String) (v : Nat)
    (h : m.any (fun p => p.1 == k) = false) :
    (setKey m k v).map Prod.fst = m.map Prod.fst ++ [k] := by
  unfold setKey
  rw [if_neg (by simp [h]), List.map_append]
  rfl

theorem not_mem_keys_of_not_any (m : KVMap) (k : String)
    (h : m.any (fun p => p.1 == k) = false) : k ∉ m.map Prod.fst := by
  intro hk
  obtain ⟨p, hp, hpk⟩ := List.mem_map.mp hk
  have := List.any_eq_false.mp h p hp
  simp [hpk] at this

theorem lookup_eq_none_of_not_any : ∀ (m : KVMap) (k : String),
    m.any (fun p => p.1 == k) = false → m.lookup k = none := by
  intro m
  induction m with
  | nil => intro k _; rfl
  | cons p t ih =>
    intro k h
    simp only [List.any_cons, Bool.or_eq_false_iff] at h
    have hk : (k == p.1) = false := by
      rcases beq_eq_false_iff_ne.mp h.1 with hne
      exact beq_eq_false_iff_ne.mpr (fun he => hne he.symm)
    simp only [List.lookup, hk]
    exact ih k h.2

theorem lookup_setKey_self : ∀ (m : KVMap) (k : String) (v : Nat),
    (setKey m k v).lookup k = some v := by
  intro m
  induction m with
  | nil => intro k v; simp [setKey, List.lookup]
  | cons p t ih =>
    intro k v
    by_cases hp : p.1 = k
    · have hany : ((p :: t).any (fun q => q.1 == k)) = true := by
        simp [hp]
      unfold setKey
      rw [if_pos hany]
      simp only [List.map_cons, beq_iff_eq, hp, if_pos rfl]
      simp [List.lookup]
    · have hkp : (k == p.1) = false :=
        beq_eq_false_iff_ne.mpr (fun he => hp he.symm)
      have hpk : (p.1 == k) = false := beq_eq_false_iff_ne.mpr hp
      have hany : ((p :: t).any (fun q => q.1 == k)) = t.any (fun q => q.1 == k) := by
        simp [List.any_cons, hpk]
      cases ht : t.any (fun q => q.1 == k) with
      | true =>
        have := ih k v
        unfold setKey at this ⊢
        rw [if_pos ht] at this
        rw [if_pos (hany.trans ht)]
        have hcond : ¬ ((p.1 == k) = true) := by simp [hpk]
        rw [List.map_cons, if_neg hcond]
        simp only [List.lookup, hkp]
        exact this
      | false =>
        have := ih k v
        unfold setKey at this ⊢
        rw [if_neg (by simp [ht])] at this
        rw [if_neg (by simp [hany, ht])]
        simp only [List.cons_append, List.lookup, hkp]
        exact this

theorem getKeyOr0_bumpKey_self (m : KVMap) (k : String) :
    getKeyOr0 (bumpKey m k) k = getKeyOr0 m k + 1 := by
  unfold bumpKey getKeyOr0
  rw [lookup_setKey_self]
  rfl

theorem setKey_length_of_present (m : KVMap) (k : String) (v : Nat)
    (h : m.any (fun p => p.1 == k) = true) :
    (setKey m k v).length = m.length := by
  unfold setKey
  rw [if_pos h, List.length_map]

theorem setKey_length_of_absent (m : KVMap) (k : String) (v : Nat)
    (h : m.any (fun p => p.1 == k) = false) :
    (setKey m k v).length = m.length + 1 := by
  unfold setKey
  rw [if_neg (by simp [h]), List.length_append]
  rfl

theorem setKey_keys_nodup (m : KVMap) (k : String) (v : Nat)
    (h : (m.map Prod.fst).Nodup) : ((setKey m k v).map Prod.fst).Nodup := by
  cases hany : m.any (fun p => p.1 == k) with
  | true => rw [setKey_map_fst_of_present m k v hany]; exact h
  | false =>
    rw [setKey_map_fst_of_absent m k v hany]
    refine List.Nodup.append h (List.nodup_singleton k) ?_
    intro x hx hx1
    rw [List.mem_singleton] at hx1
    subst hx1
    exact not_mem_keys_of_not_any m x hany hx

theorem setKey_values_pos (m : KVMap) (k : String) (v : Nat)
    (hm : ∀ p ∈ m, 1 ≤ p.2) (hv : 1 ≤ v) : ∀ p ∈ setKey m k v, 1 ≤ p.2 := by
  unfold setKey
  split
  · intro p hp
    obtain ⟨q, hq, hqp⟩ := List.mem_map.mp hp
    subst hqp
    by_cases hqk : q.1 = k
    · simp only [beq_iff_eq, hqk, if_pos rfl]
      exact hv
    · simp only [beq_eq_false_iff_ne.mpr hqk]
      simpa using hm q hq
  · intro p hp
    rcases List.mem_append.mp hp with h1 | h1
    · exact hm p h1
    · rw [List.mem_singleton] at h1
      subst h1
      exact hv

theorem getKeyOr0_pos_any (m : KVMap) (k : String)
    (hm : ∀ p ∈ m, 1 ≤ p.2) (h0 : getKeyOr0 m k = 0) :
    m.any (fun p => p.1 == k) = false := by
  cases hany : m.any (fun p => p.1 == k) with
  | false => rfl
  | true =>
    exfalso
    revert h0 hm
    induction m with
    | nil => simp at hany
    | cons p t ih =>
      intro hm h0
      by_cases hp : p.1 = k
      · have hkp : (k == p.1) = true := beq_iff_eq.mpr hp.symm
        unfold getKeyOr0 at h0
        simp only [List.lookup, hkp] at h0
        have := hm p (List.mem_cons_self _ _)
        simp only [Option.getD_some] at h0
        omega
      · have hpk : (p.1 == k) = false := beq_eq_false_iff_ne.mpr hp
        have hkp : (k == p.1) = false :=
          beq_eq_false_iff_ne.mpr (fun he => hp he.symm)
        have hany' : t.any (fun q => q.1 == k) = true := by
          simpa [List.any_cons, hpk] using hany
        apply ih hany'
        · exact fun q hq => hm q (List.mem_cons_of_mem _ hq)
        · unfold getKeyOr0 at h0 ⊢
          simpa [List.lookup, hkp] using h0

/-! ## Helper lemmas: aggregate update -/

theorem update_stats_fields (w : MetricsWorld) (m : RequestMetric) (c : Nat) :
    (updateAggregatedStats w m c).store.stats.requestsByStatus
      = w.store.stats.requestsByStatus ∧
    (updateAggregatedStats w m c).store.stats.requestsByPath
      = w.store.stats.requestsByPath ∧
    (updateAggregatedStats w m c).store.stats.requestsByIP
      = w.store.stats.requestsByIP ∧
    (updateAggregatedStats w m c).store.stats.totalRequests
      = w.store.stats.totalRequests + 1 ∧
    (updateAggregatedStats w m c).store.stats.externalRequests
      = (if m.isInternal then w.store.stats.externalRequests
         else w.store.stats.externalRequests + 1) ∧
    (updateAggregatedStats w m c).store.stats.avgDurationMs
      = (if m.isInternal then w.store.stats.avgDurationMs
         else (w.store.stats.avgDurationMs
                * (((w.store.stats.externalRequests + 1 : Nat) : ℚ) - 1)
              + (m.durationMs : ℚ)) / ((w.store.stats.externalRequests + 1 : Nat) : ℚ)) := by
  cases hm : m.isInternal <;> cases hb : m.isBot <;> cases hs : m.isSuspicious <;>
    simp [updateAggregatedStats, updateStatsScalars, hm, hb, hs]

theorem update_heap_cells (w : MetricsWorld) (m : RequestMetric) (c : Nat)
    (hS : w.store.stats.requestsByStatus = 0)
    (hP : w.store.stats.requestsByPath = 1)
    (hI : w.store.stats.requestsByIP = 2)
    (hlen : w.heap.length = 3) :
    (updateAggregatedStats w m c).heap.length = 3 ∧
    readCell (updateAggregatedStats w m c).heap 0
      = bumpKey (readCell w.heap 0) (toString m.status) ∧
    (m.isInternal = true →
      readCell (updateAggregatedStats w m c).heap 2 = readCell w.heap 2) ∧
    (m.isInternal = false →
      readCell (updateAggregatedStats w m c).heap 2 =
        (if (readCell w.heap 2).length < 100 ∨ getKeyOr0 (readCell w.heap 2) m.ip ≠ 0 then
          bumpKey (readCell w.heap 2) m.ip else readCell w.heap 2)) := by
  have h02 : (0 : Nat) ≠ 2 := by decide
  have h12 : (1 : Nat) ≠ 2 := by decide
  have h00 : (0 : Nat) < w.heap.length := by omega
  cases hm : m.isInternal with
  | true =>
    refine ⟨?_, ?_, fun _ => ?_, fun hfalse => by simp at hfalse⟩
    · simp [updateAggregatedStats, updateHeapMaps, hm, hS, hP, hI, writeCell_length, hlen]
    · simp only [updateAggregatedStats, updateHeapMaps, hm, hS, hP, hI, if_true]
      exact readCell_writeCell_self w.heap 0 _ h00
    · simp only [updateAggregatedStats, updateHeapMaps, hm, hS, hP, hI, if_true]
      exact readCell_writeCell_ne w.heap 0 2 _ h02
  | false =>
    have hip2 : readCell (writeCell (writeCell w.heap 0
          (bumpKey (readCell w.heap 0) (toString m.status))) 1
          (bumpKey (readCell (writeCell w.heap 0
            (bumpKey (readCell w.heap 0) (toString m.status))) 1)
            (pathSegments m.path 4))) 2
        = readCell w.heap 2 := by
      rw [readCell_writeCell_ne _ 1 2 _ h12, readCell_writeCell_ne _ 0 2 _ h02]
    have hlen2 : (writeCell (writeCell w.heap 0
          (bumpKey (readCell w.heap 0) (toString m.status))) 1
          (bumpKey (readCell (writeCell w.heap 0
            (bumpKey (readCell w.heap 0) (toString m.status))) 1)
            (pathSegments m.path 4))).length = 3 := by
      rw [writeCell_length, writeCell_length, hlen]
    refine ⟨?_, ?_, fun htrue => by simp at htrue, fun _ => ?_⟩
    · simp only [updateAggregatedStats, updateHeapMaps, hm, hS, hP, hI, Bool.false_eq_true,
        if_false]
      rw [hip2]
      split
      · rw [writeCell_length, hlen2]
      · exact hlen2
    · simp only [updateAggregatedStats, updateHeapMaps, hm, hS, hP, hI, Bool.false_eq_true,
        if_false]
      rw [hip2]
      split
      · rw [readCell_writeCell_ne _ 2 0 _ (by decide),
          readCell_writeCell_ne _ 1 0 _ (by decide)]
        exact readCell_writeCell_self w.heap 0 _ h00
      · rw [readCell_writeCell_ne _ 1 0 _ (by decide)]
        exact readCell_writeCell_self w.heap 0 _ h00
    · simp only [updateAggregatedStats, updateHeapMaps, hm, hS, hP, hI, Bool.false_eq_true,
        if_false]
      rw [hip2]
      split
      · rw [readCell_writeCell_self _ 2 _ (by rw [hlen2]; omega)]
      · exact hip2

theorem record_stats (w : MetricsWorld) (m : RequestMetric) (c : Nat) :
    (metricsLoggerRecord w m c).store.stats = (updateAggregatedStats w m c).store.stats := rfl

theorem record_heap (w : MetricsWorld) (m : RequestMetric) (c : Nat) :
    (metricsLoggerRecord w m c).heap = (updateAggregatedStats w m c).heap := rfl

theorem bumpKey_bounded (mp : KVMap) (k : String)
    (hnd : (mp.map Prod.fst).Nodup) (hle : mp.length ≤ 100) (hpos : ∀ p ∈ mp, 1 ≤ p.2)
    (hcond : mp.length < 100 ∨ getKeyOr0 mp k ≠ 0) :
    ((bumpKey mp k).map Prod.fst).Nodup ∧ (bumpKey mp k).length ≤ 100 ∧
      ∀ p ∈ bumpKey mp k, 1 ≤ p.2 := by
  refine ⟨setKey_keys_nodup mp k _ hnd, ?_, setKey_values_pos mp k _ hpos (by omega)⟩
  cases hany : mp.any (fun p => p.1 == k) with
  | true =>
    unfold bumpKey
    rw [setKey_length_of_present mp k _ hany]
    exact hle
  | false =>
    have h0 : getKeyOr0 mp k = 0 := by
      unfold getKeyOr0
      rw [lookup_eq_none_of_not_any mp k hany]
      rfl
    have hlt : mp.length < 100 := by
      rcases hcond with h | h
      · exact h
      · exact absurd h0 h
    unfold bumpKey
    rw [setKey_length_of_absent mp k _ hany]
    omega

theorem metricsInv_record (w : MetricsWorld) (m : RequestMetric) (c : Nat)
    (h : MetricsInv w) : MetricsInv (metricsLoggerRecord w m c) := by
  obtain ⟨hS, hP, hI, hlen, hnd, hle, hpos⟩ := h
  have hu := update_heap_cells w m c hS hP hI hlen
  have hf := update_stats_fields w m c
  unfold MetricsInv
  rw [record_stats, record_heap]
  refine ⟨by rw [hf.1, hS], by rw [hf.2.1, hP], by rw [hf.2.2.1, hI], hu.1, ?_⟩
  cases hm : m.isInternal with
  | true =>
    rw [hu.2.2.1 hm]
    exact ⟨hnd, hle, hpos⟩
  | false =>
    rw [hu.2.2.2 hm]
    split
    · rename_i hcond
      have := bumpKey_bounded (readCell w.heap 2) m.ip hnd hle hpos hcond
      exact ⟨this.1, this.2.1, this.2.2⟩
    · exact ⟨hnd, hle, hpos⟩

theorem metricsInv_initMetricsWorld : MetricsInv initMetricsWorld := by
  unfold MetricsInv
  refine ⟨rfl, rfl, rfl, rfl, ?_, ?_, ?_⟩ <;>
    simp [initMetricsWorld, createMetricsStore, readCell]

theorem metricsInv_recordAll (ms : List (RequestMetric × Nat)) :
    MetricsInv (recordAll ms) := by
  have hgen : ∀ (l : List (RequestMetric × Nat)) (w : MetricsWorld), MetricsInv w →
      MetricsInv (l.foldl (fun w p => metricsLoggerRecord w p.1 p.2) w) := by
    intro l
    induction l with
    | nil => intro w h; exact h
    | cons p t ih =>
      intro w h
      exact ih _ (metricsInv_record w p.1 p.2 h)
  exact hgen ms initMetricsWorld metricsInv_initMetricsWorld

/-- C7: across every sequence of record calls the per-IP breakdown has
pairwise-distinct keys and never more than 100 of them; once the map is
full, an external record from an untracked IP leaves the map unchanged
while the aggregate totals still advance, and an external record from a
tracked IP still increments that IP's count. -/
theorem claim_C7 :
    (∀ ms : List (RequestMetric × Nat),
      ((readCell (recordAll ms).heap (recordAll ms).store.stats.requestsByIP).map
          Prod.fst).Nodup ∧
      (readCell (recordAll ms).heap (recordAll ms).store.stats.requestsByIP).length ≤ 100) ∧
    (∀ (w : MetricsWorld) (m : RequestMetric) (c : Nat), MetricsInv w →
      m.isInternal = false →
      (readCell w.heap w.store.stats.requestsByIP).length = 100 →
      getKeyOr0 (readCell w.heap w.store.stats.requestsByIP) m.ip = 0 →
      readCell (metricsLoggerRecord w m c).heap
          (metricsLoggerRecord w m c).store.stats.requestsByIP
        = readCell w.heap w.store.stats.requestsByIP ∧
      (metricsLoggerRecord w m c).store.stats.totalRequests
        = w.store.stats.totalRequests + 1 ∧
      (metricsLoggerRecord w m c).store.stats.externalRequests
        = w.store.stats.externalRequests + 1) ∧
    (∀ (w : MetricsWorld) (m : RequestMetric) (c : Nat), MetricsInv w →
      m.isInternal = false →
      getKeyOr0 (readCell w.heap w.store.stats.requestsByIP) m.ip ≠ 0 →
      getKeyOr0 (readCell (metricsLoggerRecord w m c).heap
          (metricsLoggerRecord w m c).store.stats.requestsByIP) m.ip
        = getKeyOr0 (readCell w.heap w.store.stats.requestsByIP) m.ip + 1) := by
  refine ⟨?_, ?_, ?_⟩
  · intro ms
    obtain ⟨hS, hP, hI, hlen, hnd, hle, hpos⟩ := metricsInv_recordAll ms
    rw [hI]
    exact ⟨hnd, hle⟩
  · intro w m c hInv hm hcap h0
    obtain ⟨hS, hP, hI, hlen, hnd, hle, hpos⟩ := hInv
    have hu := update_heap_cells w m c hS hP hI hlen
    have hf := update_stats_fields w m c
    rw [hI] at hcap h0 ⊢
    have haddr : (metricsLoggerRecord w m c).store.stats.requestsByIP = 2 := by
      rw [record_stats, hf.2.2.1, hI]
    rw [haddr, record_heap, hu.2.2.2 hm]
    have hcond : ¬ ((readCell w.heap 2).length < 100 ∨
        getKeyOr0 (readCell w.heap 2) m.ip ≠ 0) := by
      rw [hcap, h0]
      simp
    rw [if_neg hcond]
    refine ⟨rfl, ?_, ?_⟩
    · rw [record_stats, hf.2.2.2.1]
    · rw [record_stats, hf.2.2.2.2.1, if_neg (by simp [hm])]
  · intro w m c hInv hm hseen
    obtain ⟨hS, hP, hI, hlen, hnd, hle, hpos⟩ := hInv
    have hu := update_heap_cells w m c hS hP hI hlen
    have hf := update_stats_fields w m c
    rw [hI] at hseen ⊢
    have haddr : (metricsLoggerRecord w m c).store.stats.requestsByIP = 2 := by
      rw [record_stats, hf.2.2.1, hI]
    rw [haddr, record_heap, hu.2.2.2 hm, if_pos (Or.inr hseen)]
    exact getKeyOr0_bumpKey_self (readCell w.heap 2) m.ip

/-- Witness for C7: after one external record, recording again from the
same IP increments its count from 1 to 2. -/
theorem claim_C7_witness :
    getKeyOr0 (readCell (metricsLoggerRecord (recordAll [(sampleExternalMetric, 1)])
          sampleExternalMetric 2).heap
        (metricsLoggerRecord (recordAll [(sampleExternalMetric, 1)])
          sampleExternalMetric 2).store.stats.requestsByIP) sampleExternalMetric.ip
      = getKeyOr0 (readCell (recordAll [(sampleExternalMetric, 1)]).heap
          (recordAll [(sampleExternalMetric, 1)]).store.stats.requestsByIP)
          sampleExternalMetric.ip + 1 :=
  claim_C7.2.2 (recordAll [(sampleExternalMetric, 1)]) sampleExternalMetric 2
    (metricsInv_recordAll [(sampleExternalMetric, 1)]) rfl (by decide)

/-- C8: the running average is updated only by external records —
internal records leave it unchanged, an external record moves it by the
exact incremental-mean formula — and recording external durations 100,
200, 300 into a fresh store yields an average of exactly 200. -/
theorem claim_C8 :
    (∀ (w : MetricsWorld) (m : RequestMetric) (c : Nat), m.isInternal = true →
      (metricsLoggerRecord w m c).store.stats.avgDurationMs
        = w.store.stats.avgDurationMs) ∧
    (∀ (w : MetricsWorld) (m : RequestMetric) (c : Nat), m.isInternal = false →
      (metricsLoggerRecord w m c).store.stats.avgDurationMs
        = (w.store.stats.avgDurationMs * (w.store.stats.externalRequests : ℚ)
            + (m.durationMs : ℚ)) / ((w.store.stats.externalRequests : ℚ) + 1)) ∧
    (recordAll [(extMetric 100, 1), (extMetric 200, 2),
        (extMetric 300, 3)]).store.stats.avgDurationMs = 200 := by
  have hint : ∀ (w : MetricsWorld) (m : RequestMetric) (c : Nat), m.isInternal = true →
      (metricsLoggerRecord w m c).store.stats.avgDurationMs
        = w.store.stats.avgDurationMs := by
    intro w m c hm
    rw [record_stats, (update_stats_fields w m c).2.2.2.2.2, if_pos hm]
  have hext : ∀ (w : MetricsWorld) (m : RequestMetric) (c : Nat), m.isInternal = false →
      (metricsLoggerRecord w m c).store.stats.avgDurationMs
        = (w.store.stats.avgDurationMs * (w.store.stats.externalRequests : ℚ)
            + (m.durationMs : ℚ)) / ((w.store.stats.externalRequests : ℚ) + 1) := by
    intro w m c hm
    rw [record_stats, (update_stats_fields w m c).2.2.2.2.2, if_neg (by simp [hm])]
    push_cast
    ring_nf
  refine ⟨hint, hext, ?_⟩
  have hw : recordAll [(extMetric 100, 1), (extMetric 200, 2), (extMetric 300, 3)]
      = metricsLoggerRecord (metricsLoggerRecord (metricsLoggerRecord initMetricsWorld
          (extMetric 100) 1) (extMetric 200) 2) (extMetric 300) 3 := rfl
  rw [hw]
  have hm100 : (extMetric 100).isInternal = false := rfl
  have hm200 : (extMetric 200).isInternal = false := rfl
  have hm300 : (extMetric 300).isInternal = false := rfl
  have e0 : initMetricsWorld.store.stats.externalRequests = 0 := rfl
  have a0 : initMetricsWorld.store.stats.avgDurationMs = 0 := rfl
  have e1 : (metricsLoggerRecord initMetricsWorld (extMetric 100) 1).store.stats.externalRequests
      = 1 := by
    rw [record_stats, (update_stats_fields _ _ _).2.2.2.2.1, if_neg (by simp [hm100]), e0]
  have a1 : (metricsLoggerRecord initMetricsWorld (extMetric 100) 1).store.stats.avgDurationMs
      = 100 := by
    rw [hext initMetricsWorld (extMetric 100) 1 hm100, e0, a0]
    norm_num [extMetric, sampleExternalMetric]
  have e2 : (metricsLoggerRecord (metricsLoggerRecord initMetricsWorld (extMetric 100) 1)
        (extMetric 200) 2).store.stats.externalRequests = 2 := by
    rw [record_stats, (update_stats_fields _ _ _).2.2.2.2.1, if_neg (by simp [hm200]), e1]
  have a2 : (metricsLoggerRecord (metricsLoggerRecord initMetricsWorld (extMetric 100) 1)
        (extMetric 200) 2).store.stats.avgDurationMs = 150 := by
    rw [hext _ (extMetric 200) 2 hm200, e1, a1]
    norm_num [extMetric, sampleExternalMetric]
  rw [hext _ (extMetric 300) 3 hm300, e2, a2]
  norm_num [extMetric, sampleExternalMetric]

/-- Witness for C8 at one internal and one external record on a fresh
store. -/
theorem claim_C8_witness :
    (metricsLoggerRecord initMetricsWorld sampleInternalMetric 1).store.stats.avgDurationMs
      = initMetricsWorld.store.stats.avgDurationMs ∧
    (metricsLoggerRecord initMetricsWorld sampleExternalMetric 1).store.stats.avgDurationMs
      = (initMetricsWorld.store.stats.avgDurationMs
          * (initMetricsWorld.store.stats.externalRequests : ℚ)
          + (sampleExternalMetric.durationMs : ℚ))
        / ((initMetricsWorld.store.stats.externalRequests : ℚ) + 1) :=
  ⟨claim_C8.1 initMetricsWorld sampleInternalMetric 1 rfl,
   claim_C8.2.1 initMetricsWorld sampleExternalMetric 1 rfl⟩

/-- Counterexample for C9: take the snapshot of a fresh store, then
record one external request with status 200; reading the snapshot's
per-status map through its retained reference now yields the updated
map, not the contents at snapshot time — the nested maps of the shallow
copy are changed by later record calls. -/
theorem claim_C9_counterexample :
    readCell (metricsLoggerRecord initMetricsWorld sampleExternalMetric 1).heap
        (getAggregatedStats initMetricsWorld).requestsByStatus
      ≠ readCell initMetricsWorld.heap
        (getAggregatedStats initMetricsWorld).requestsByStatus := by
  decide

/-- C9 as amended: `getAggregatedStats` is a shallow copy — the scalar
fields are copied values, so the live totals advance while the
snapshot's stay put, but the three nested map references are shared, so
a record call performed after the accessor returned is visible through
the snapshot's per-status map reference. -/
theorem claim_C9_amended (w : MetricsWorld) (m : RequestMetric) (c : Nat)
    (hInv : MetricsInv w) :
    (getAggregatedStats (metricsLoggerRecord w m c)).requestsByStatus
      = (getAggregatedStats w).requestsByStatus ∧
    (getAggregatedStats (metricsLoggerRecord w m c)).requestsByPath
      = (getAggregatedStats w).requestsByPath ∧
    (getAggregatedStats (metricsLoggerRecord w m c)).requestsByIP
      = (getAggregatedStats w).requestsByIP ∧
    (getAggregatedStats (metricsLoggerRecord w m c)).totalRequests
      = (getAggregatedStats w).totalRequests + 1 ∧
    readCell (metricsLoggerRecord w m c).heap (getAggregatedStats w).requestsByStatus
      = bumpKey (readCell w.heap (getAggregatedStats w).requestsByStatus)
          (toString m.status) := by
  obtain ⟨hS, hP, hI, hlen, hnd, hle, hpos⟩ := hInv
  have hu := update_heap_cells w m c hS hP hI hlen
  have hf := update_stats_fields w m c
  unfold getAggregatedStats
  rw [record_stats, record_heap]
  refine ⟨hf.1, hf.2.1, hf.2.2.1, hf.2.2.2.1, ?_⟩
  rw [hS]
  exact hu.2.1

/-- Witness for C9's amended statement on a fresh store and one external
record. -/
theorem claim_C9_amended_witness :
    (getAggregatedStats (metricsLoggerRecord initMetricsWorld
        sampleExternalMetric 1)).requestsByStatus
      = (getAggregatedStats initMetricsWorld).requestsByStatus ∧
    (getAggregatedStats (metricsLoggerRecord initMetricsWorld
        sampleExternalMetric 1)).requestsByPath
      = (getAggregatedStats initMetricsWorld).requestsByPath ∧
    (getAggregatedStats (metricsLoggerRecord initMetricsWorld
        sampleExternalMetric 1)).requestsByIP
      = (getAggregatedStats initMetricsWorld).requestsByIP ∧
    (getAggregatedStats (metricsLoggerRecord initMetricsWorld
        sampleExternalMetric 1)).totalRequests
      = (getAggregatedStats initMetricsWorld).totalRequests + 1 ∧
    readCell (metricsLoggerRecord initMetricsWorld sampleExternalMetric 1).heap
        (getAggregatedStats initMetricsWorld).requestsByStatus
      = bumpKey (readCell initMetricsWorld.heap
          (getAggregatedStats initMetricsWorld).requestsByStatus)
          (toString sampleExternalMetric.status) :=
  claim_C9_amended initMetricsWorld sampleExternalMetric 1 metricsInv_initMetricsWorld

/-- C10: with `limit = 0` the accessors return everything — the
recent-records accessor returns all stored records (because
`slice(-0)` is `slice(0)`), and the suspicious-only and by-IP accessors
return all matching records. -/
theorem claim_C10 (w : MetricsWorld) (ip : String) (hne : w.store.metrics ≠ []) :
    getRecentMetrics w 0 = w.store.metrics ∧
    getSuspiciousRequests w 0 = w.store.metrics.filter (fun m => m.isSuspicious) ∧
    getRequestsByIP w ip 0 = w.store.metrics.filter (fun m => m.ip == ip) := by
  refine ⟨?_, ?_, ?_⟩ <;>
    simp [getRecentMetrics, getSuspiciousRequests, getRequestsByIP, jsSliceLast]

/-- Witness for C10 on a store holding one external record. -/
theorem claim_C10_witness :
    getRecentMetrics (recordAll [(sampleExternalMetric, 1)]) 0
      = (recordAll [(sampleExternalMetric, 1)]).store.metrics ∧
    getSuspiciousRequests (recordAll [(sampleExternalMetric, 1)]) 0
      = (recordAll [(sampleExternalMetric, 1)]).store.metrics.filter
          (fun m => m.isSuspicious) ∧
    getRequestsByIP (recordAll [(sampleExternalMetric, 1)]) "203.0.113.7" 0
      = (recordAll [(sampleExternalMetric, 1)]).store.metrics.filter
          (fun m => m.ip == "203.0.113.7") :=
  claim_C10 (recordAll [(sampleExternalMetric, 1)]) "203.0.113.7" (by decide)
